import Mathlib

/-!
Shallow embedding of `src/PriceListManagementService/app/main.py`, the single
source file of the price-list management service, together with theorems
checking the natural-language specification against it.

Modelling choices:
* Python floats carried by the service (`base_price`, `percent_off`) are
  modelled as rationals `ℚ`; `round(x, 2)` is modelled as round-half-to-even
  at two decimal places (Python's rounding mode on exact values).
* The two module-level dicts `PRICES` and `PROMOTIONS` form the mutable
  state, modelled as a `Store` of two total lookup functions into `Option`.
* Each HTTP handler becomes a pure function from the store (and its request
  data) to a result; `Except Nat _` carries the HTTP error status (404 for
  `HTTPException(404)`, 422 for pydantic validation failures).
* Pydantic's `Field(..., ge=0, le=100)` bound on `percent_off` is the guard
  of `upsert_promotion`, rejecting with 422 before the handler body runs.
* Python truthiness of `percent` (`if percent:` / `if not percent:`) is
  `none` or `some 0` being falsy, any other `some p` truthy.
-/

namespace PriceList

/-- A stored price record: the dict `{"currency": ..., "base_price": ...}`
kept in `PRICES`. -/
structure PriceRec where
  currency : String
  base_price : ℚ
  deriving DecidableEq

/-- The module-level mutable state: dicts `PRICES` and `PROMOTIONS`. -/
structure Store where
  PRICES : String → Option PriceRec
  PROMOTIONS : String → Option ℚ

/-- The initial state: both dicts empty. -/
def Store.empty : Store := ⟨fun _ => none, fun _ => none⟩

/-- Request body of `POST /api/v1/prices` (pydantic model `PriceCreate`). -/
structure PriceCreate where
  product_id : String
  currency : String
  base_price : ℚ
  deriving DecidableEq

/-- Response model `PriceResponse`: the price view returned by the three
price handlers. -/
structure PriceResponse where
  product_id : String
  currency : String
  final_price : ℚ
  base_price : ℚ
  promotion_applied : Option ℚ
  deriving DecidableEq

/-- Request body of `POST /api/v1/prices/query` (pydantic model
`PriceQuery`); `include_promotions` defaults to `True`. -/
structure PriceQuery where
  product_id : String
  currency : String
  include_promotions : Bool := true
  deriving DecidableEq

/-- Confirmation echo returned by `POST /api/v1/promotions`. -/
structure PromotionAck where
  product_id : String
  percent_off : ℚ
  deriving DecidableEq

/-- Round a rational to the nearest integer, ties to even (Python's
rounding mode for `round` on exact halves). -/
def roundHalfEven (x : ℚ) : ℤ :=
  let f := ⌊x⌋
  let frac := x - f
  if frac < 1/2 then f
  else if 1/2 < frac then f + 1
  else if f % 2 = 0 then f else f + 1

/-- Python's `round(x, 2)`: round to two decimal places. -/
def round2 (x : ℚ) : ℚ := (roundHalfEven (x * 100) : ℚ) / 100

/-- The pricing rule shared verbatim by the three price handlers:
`final_price = base if not percent else round(base * (1 - percent / 100), 2)`.
A `percent` of `none` or `some 0` is falsy in Python, so it leaves the base
price unchanged. -/
def finalOf (base : ℚ) (percent : Option ℚ) : ℚ :=
  match percent with
  | none => base
  | some p => if p = 0 then base else round2 (base * (1 - p / 100))

/-- Handler of `POST /api/v1/prices` (`upsert_price`): stores the payload
under its product id, then builds the price view using the current
promotion (if any). Returns the updated store and the response. -/
def upsert_price (s : Store) (payload : PriceCreate) : Store × PriceResponse :=
  let s2 : Store :=
    { s with PRICES := fun k =>
        if k = payload.product_id then
          some ⟨payload.currency, payload.base_price⟩
        else s.PRICES k }
  let percent := s2.PROMOTIONS payload.product_id
  (s2,
   { product_id := payload.product_id
     currency := payload.currency
     final_price := finalOf payload.base_price percent
     base_price := payload.base_price
     promotion_applied := percent })

/-- Handler of `GET /api/v1/prices/{product_id}` (`get_price`): 404 when no
price record exists; otherwise consults the promotion only when
`apply_promotions` is true and returns the price view. -/
def get_price (s : Store) (product_id : String)
    (apply_promotions : Bool := true) : Except Nat PriceResponse :=
  match s.PRICES product_id with
  | none => .error 404
  | some p =>
    let base := p.base_price
    let percent := if apply_promotions then s.PROMOTIONS product_id else none
    .ok
      { product_id := product_id
        currency := p.currency
        final_price := finalOf base percent
        base_price := base
        promotion_applied := percent }

/-- Handler of `POST /api/v1/prices/query` (`query_price`): 404 when no
price record exists. A currency mismatch is silently ignored (the source's
`if p["currency"] != payload.currency:` branch is `pass`); the stored
record is returned, with the promotion consulted only when
`include_promotions` is true. -/
def query_price (s : Store) (payload : PriceQuery) : Except Nat PriceResponse :=
  match s.PRICES payload.product_id with
  | none => .error 404
  | some p =>
    let base := p.base_price
    let percent :=
      if payload.include_promotions then s.PROMOTIONS payload.product_id
      else none
    .ok
      { product_id := payload.product_id
        currency := p.currency
        final_price := finalOf base percent
        base_price := base
        promotion_applied := percent }

/-- Handler of `POST /api/v1/promotions` (`upsert_promotion`), together with
its pydantic validation `percent_off : ge=0, le=100`: out-of-range input is
rejected with 422 before the handler body runs; otherwise the promotion is
stored and a confirmation echo returned. -/
def upsert_promotion (s : Store) (product_id : String) (percent_off : ℚ) :
    Except Nat (Store × PromotionAck) :=
  if 0 ≤ percent_off ∧ percent_off ≤ 100 then
    .ok
      ({ s with PROMOTIONS := fun k =>
          if k = product_id then some percent_off else s.PROMOTIONS k },
       ⟨product_id, percent_off⟩)
  else .error 422

/-- The five operations of the service, for stating state-evolution
properties. -/
inductive Op where
  | health
  | upsertPrice (payload : PriceCreate)
  | getPrice (product_id : String) (apply_promotions : Bool)
  | queryPrice (payload : PriceQuery)
  | upsertPromotion (product_id : String) (percent_off : ℚ)

/-- State transition of one operation: only the two upserts mutate the
store; a rejected promotion upsert leaves it unchanged. -/
def step (s : Store) (op : Op) : Store :=
  match op with
  | .health => s
  | .upsertPrice payload => (upsert_price s payload).1
  | .getPrice _ _ => s
  | .queryPrice _ => s
  | .upsertPromotion pid pct =>
    match upsert_promotion s pid pct with
    | .ok (s2, _) => s2
    | .error _ => s

/-- The state reached from the empty store by a sequence of operations. -/
def run (ops : List Op) : Store := ops.foldl step Store.empty

end PriceList

namespace PriceList

/-! ### Concrete example states used by witnesses -/

/-- A prices table holding one record: product `"P"` priced 100 USD. -/
def wPrices : String → Option PriceRec :=
  fun k => if k = "P" then some ⟨"USD", 100⟩ else none

/-- Product `"P"` priced 100 USD with a 20% promotion stored. -/
def wStore : Store := ⟨wPrices, fun k => if k = "P" then some 20 else none⟩

/-- Product `"P"` priced 100 USD with no promotion stored. -/
def wStoreNoPromo : Store := ⟨wPrices, fun _ => none⟩

/-- Product `"P"` priced 100 USD with a 0% promotion stored. -/
def wStoreZeroPromo : Store := ⟨wPrices, fun k => if k = "P" then some 0 else none⟩

/-- A 20% promotion stored for product `"P"` but no price record at all. -/
def wStorePromoOnly : Store := ⟨fun _ => none, fun k => if k = "P" then some 20 else none⟩

/-! ### Claims -/

/-- C4: after `set_price(P, C, B)` in a state with no promotion for `P`,
`get_price(P)` succeeds and returns `base_price = B`, `final_price = B`,
and no `promotion_applied`. -/
theorem C4_upsert_get_roundtrip (s : Store) (P C : String) (B : ℚ)
    (hnp : s.PROMOTIONS P = none) :
    get_price (upsert_price s ⟨P, C, B⟩).1 P true = .ok ⟨P, C, B, B, none⟩ := by
  simp [get_price, upsert_price, finalOf, hnp]

/-- C4 witness: the round-trip at the empty store with concrete values. -/
theorem C4_witness :
    get_price (upsert_price Store.empty ⟨"P", "USD", 100⟩).1 "P" true
      = .ok ⟨"P", "USD", 100, 100, none⟩ :=
  C4_upsert_get_roundtrip Store.empty "P" "USD" 100 rfl

/-- C5: `set_promotion(P, percent_off)` with `percent_off` outside `[0,100]`
fails with a 422 validation error, and the store (both mappings) is
unchanged by the failed call. -/
theorem C5_promotion_range_validation (s : Store) (P : String) (pct : ℚ)
    (hout : pct < 0 ∨ 100 < pct) :
    upsert_promotion s P pct = .error 422
      ∧ step s (.upsertPromotion P pct) = s := by
  have hfail : ¬(0 ≤ pct ∧ pct ≤ 100) := by
    rcases hout with h | h
    · exact fun hc => absurd hc.1 (not_le.mpr h)
    · exact fun hc => absurd hc.2 (not_le.mpr h)
  constructor
  · simp [upsert_promotion, hfail]
  · simp [step, upsert_promotion, hfail]

/-- C5 witness: `set_promotion("P", 150)` at the empty store. -/
theorem C5_witness :
    upsert_promotion Store.empty "P" 150 = .error 422
      ∧ step Store.empty (.upsertPromotion "P" 150) = Store.empty :=
  C5_promotion_range_validation Store.empty "P" 150 (Or.inr (by norm_num))

/-- C6: when no price record exists for `P`, both `get_price` and
`query_price` fail with 404, whatever the promotions table holds. -/
theorem C6_not_found (s : Store) (P C : String) (ap inc : Bool)
    (habs : s.PRICES P = none) :
    get_price s P ap = .error 404
      ∧ query_price s ⟨P, C, inc⟩ = .error 404 := by
  constructor
  · simp [get_price, habs]
  · simp [query_price, habs]

/-- C6 witness: a store holding a promotion for `"P"` but no price record. -/
theorem C6_witness :
    get_price wStorePromoOnly "P" true = .error 404
      ∧ query_price wStorePromoOnly ⟨"P", "USD", true⟩ = .error 404 :=
  C6_not_found wStorePromoOnly "P" "USD" true true rfl

/-- C7: `query_price` with a currency differing from the stored one still
succeeds and returns the stored record unmodified (stored currency, stored
base price), exactly as if the matching currency had been supplied. -/
theorem C7_currency_mismatch_ignored (s : Store) (q : PriceQuery) (rec : PriceRec)
    (hrec : s.PRICES q.product_id = some rec) (hne : q.currency ≠ rec.currency) :
    (∃ r, query_price s q = .ok r
        ∧ r.currency = rec.currency ∧ r.base_price = rec.base_price)
    ∧ query_price s q
        = query_price s ⟨q.product_id, rec.currency, q.include_promotions⟩ := by
  have hq : query_price s q
      = .ok ⟨q.product_id, rec.currency,
          finalOf rec.base_price
            (if q.include_promotions then s.PROMOTIONS q.product_id else none),
          rec.base_price,
          if q.include_promotions then s.PROMOTIONS q.product_id else none⟩ := by
    simp [query_price, hrec]
  exact ⟨⟨_, hq, rfl, rfl⟩, rfl⟩

/-- C7 witness: stored USD record queried as EUR. -/
theorem C7_witness :
    (∃ r, query_price wStoreNoPromo ⟨"P", "EUR", true⟩ = .ok r
        ∧ r.currency = "USD" ∧ r.base_price = 100)
    ∧ query_price wStoreNoPromo ⟨"P", "EUR", true⟩
        = query_price wStoreNoPromo ⟨"P", "USD", true⟩ :=
  C7_currency_mismatch_ignored wStoreNoPromo ⟨"P", "EUR", true⟩ ⟨"USD", 100⟩
    rfl (by decide)

/-- C8: `get_price` with `apply_promotions = false` returns the stored base
price as the final price and no `promotion_applied`, whatever promotion is
stored. -/
theorem C8_apply_promotions_false (s : Store) (P : String) (rec : PriceRec)
    (hrec : s.PRICES P = some rec) :
    get_price s P false
      = .ok ⟨P, rec.currency, rec.base_price, rec.base_price, none⟩ := by
  simp [get_price, finalOf, hrec]

/-- C8 witness: a non-zero 20% promotion is stored for `"P"` yet ignored. -/
theorem C8_witness :
    get_price wStore "P" false = .ok ⟨"P", "USD", 100, 100, none⟩ :=
  C8_apply_promotions_false wStore "P" ⟨"USD", 100⟩ rfl

/-- C1: for a stored price record with a present non-zero promotion in
[0,100], the final price returned by `get_price` (promotions applied),
`query_price` (promotions included) and `upsert_price` equals
base × (1 − percent/100) rounded to two decimals; with no stored
promotion it equals the base price unchanged. -/
theorem C1_final_price_formula (s : Store) (pid cur : String) (rec : PriceRec)
    (payload : PriceCreate) (p : ℚ) (hrec : s.PRICES pid = some rec) :
    (s.PROMOTIONS pid = some p → p ≠ 0 → 0 ≤ p → p ≤ 100 →
      (get_price s pid true).map PriceResponse.final_price
          = .ok (round2 (rec.base_price * (1 - p / 100)))
        ∧ (query_price s ⟨pid, cur, true⟩).map PriceResponse.final_price
          = .ok (round2 (rec.base_price * (1 - p / 100))))
    ∧ (s.PROMOTIONS pid = none →
      (get_price s pid true).map PriceResponse.final_price = .ok rec.base_price
        ∧ (query_price s ⟨pid, cur, true⟩).map PriceResponse.final_price
          = .ok rec.base_price)
    ∧ (s.PROMOTIONS payload.product_id = some p → p ≠ 0 → 0 ≤ p → p ≤ 100 →
      (upsert_price s payload).2.final_price
        = round2 (payload.base_price * (1 - p / 100)))
    ∧ (s.PROMOTIONS payload.product_id = none →
      (upsert_price s payload).2.final_price = payload.base_price) := by
  refine ⟨?_, ?_, ?_, ?_⟩
  · intro hp hne _ _
    exact ⟨by simp [get_price, hrec, hp, finalOf, hne, Except.map],
           by simp [query_price, hrec, hp, finalOf, hne, Except.map]⟩
  · intro hp
    exact ⟨by simp [get_price, hrec, hp, finalOf, Except.map],
           by simp [query_price, hrec, hp, finalOf, Except.map]⟩
  · intro hp hne _ _
    simp [upsert_price, hp, finalOf, hne]
  · intro hp
    simp [upsert_price, hp, finalOf]

/-- C1 witness: a 20% promotion on a 100 USD price via `get_price` and
`query_price`, and an upsert with no promotion recorded. -/
theorem C1_witness :
    ((get_price wStore "P" true).map PriceResponse.final_price
        = .ok (round2 (100 * (1 - 20 / 100)))
      ∧ (query_price wStore ⟨"P", "USD", true⟩).map PriceResponse.final_price
        = .ok (round2 (100 * (1 - 20 / 100))))
    ∧ (upsert_price wStoreNoPromo ⟨"Q", "EUR", 55⟩).2.final_price = 55 := by
  have h1 := C1_final_price_formula wStore "P" "USD" ⟨"USD", 100⟩
    ⟨"Q", "EUR", 55⟩ 20 rfl
  have h2 := C1_final_price_formula wStoreNoPromo "P" "USD" ⟨"USD", 100⟩
    ⟨"Q", "EUR", 55⟩ 20 rfl
  exact ⟨h1.1 rfl (by decide) (by decide) (by decide), h2.2.2.2 rfl⟩

/-- C2 counterexample: starting from the empty store, after
`set_price("P","USD",100)` and `set_promotion("P",20)`, `get_price("P")`
returns a final price of 80, not 78.4 as the claim states. -/
theorem C2_counterexample :
    (get_price (run [.upsertPrice ⟨"P", "USD", 100⟩, .upsertPromotion "P" 20])
        "P" true).map PriceResponse.final_price ≠ .ok (78.4 : ℚ) := by
  norm_num [run, step, get_price, upsert_price, upsert_promotion, Store.empty,
    finalOf, round2, roundHalfEven, Except.map]

/-- C2 amended: after `set_price(P,"USD",100)` and `set_promotion(P,20)`,
`get_price(P)` returns final price 80.00 (= 100 × (1 − 20/100)) with
`promotion_applied = 20`. -/
theorem C2_amended_get_price (P : String) :
    get_price (run [.upsertPrice ⟨P, "USD", 100⟩, .upsertPromotion P 20]) P true
      = .ok ⟨P, "USD", 80, 100, some 20⟩ := by
  norm_num [run, step, get_price, upsert_price, upsert_promotion, Store.empty,
    finalOf, round2, roundHalfEven]

/-- C3 counterexample: with product `"P"` priced 100 USD, the view returned
by `get_price` when a 0% promotion is stored differs from the view returned
when no promotion is stored: `promotion_applied` is `some 0` in the first
and absent in the second. -/
theorem C3_counterexample :
    get_price wStoreZeroPromo "P" true ≠ get_price wStoreNoPromo "P" true := by
  simp [get_price, wStoreZeroPromo, wStoreNoPromo, wPrices, finalOf]

/-- C3 amended: with a 0% promotion stored, `get_price` returns the same
view as with no promotion in every field except `promotion_applied`, which
is `some 0` instead of absent; the final price equals the base price in
both cases. -/
theorem C3_zero_promotion (s : Store) (P : String) (rec : PriceRec)
    (hrec : s.PRICES P = some rec) :
    (s.PROMOTIONS P = some 0 →
      get_price s P true
        = .ok ⟨P, rec.currency, rec.base_price, rec.base_price, some 0⟩)
    ∧ (s.PROMOTIONS P = none →
      get_price s P true
        = .ok ⟨P, rec.currency, rec.base_price, rec.base_price, none⟩) := by
  exact ⟨fun hp => by simp [get_price, hrec, hp, finalOf],
         fun hp => by simp [get_price, hrec, hp, finalOf]⟩

/-- C3 witness: the two views at the concrete 100 USD record, with a 0%
promotion and with none. -/
theorem C3_witness :
    get_price wStoreZeroPromo "P" true = .ok ⟨"P", "USD", 100, 100, some 0⟩
      ∧ get_price wStoreNoPromo "P" true = .ok ⟨"P", "USD", 100, 100, none⟩ :=
  ⟨(C3_zero_promotion wStoreZeroPromo "P" ⟨"USD", 100⟩ rfl).1 rfl,
   (C3_zero_promotion wStoreNoPromo "P" ⟨"USD", 100⟩ rfl).2 rfl⟩

/-- The range invariant on the promotions table: every stored percent lies
in [0,100]. -/
def PromoInv (s : Store) : Prop :=
  ∀ (k : String) (p : ℚ), s.PROMOTIONS k = some p → 0 ≤ p ∧ p ≤ 100

/-- Every operation preserves the promotions-range invariant. -/
theorem promoInv_step {s : Store} (h : PromoInv s) (op : Op) :
    PromoInv (step s op) := by
  cases op with
  | health => exact h
  | getPrice pid ap => exact h
  | queryPrice q => exact h
  | upsertPrice payload => exact h
  | upsertPromotion pid pct =>
    by_cases hc : 0 ≤ pct ∧ pct ≤ 100
    · intro k p hk
      simp only [step, upsert_promotion, if_pos hc] at hk
      by_cases hk2 : k = pid
      · simp only [if_pos hk2, Option.some.injEq] at hk
        exact hk ▸ hc
      · exact h k p (by simpa [hk2] using hk)
    · simpa [step, upsert_promotion, hc] using h

/-- The promotions-range invariant holds along any run. -/
theorem promoInv_foldl (ops : List Op) :
    ∀ s, PromoInv s → PromoInv (ops.foldl step s) := by
  induction ops with
  | nil => exact fun _ h => h
  | cons op rest ih => exact fun s h => ih _ (promoInv_step h op)

/-- C9: in every state reachable from the empty store, every stored
`percent_off` lies in [0,100]; and no operation ever deletes an existing
price or promotion entry. -/
theorem C9_reachable_invariant (ops : List Op) :
    (∀ (k : String) (p : ℚ),
        (run ops).PROMOTIONS k = some p → 0 ≤ p ∧ p ≤ 100)
    ∧ ∀ (s : Store) (op : Op) (k : String),
        ((s.PRICES k).isSome → ((step s op).PRICES k).isSome)
        ∧ ((s.PROMOTIONS k).isSome → ((step s op).PROMOTIONS k).isSome) := by
  constructor
  · exact promoInv_foldl ops Store.empty
      (fun k p hk => by simp [Store.empty] at hk)
  · intro s op k
    constructor
    · cases op with
      | health => exact id
      | getPrice pid ap => exact id
      | queryPrice q => exact id
      | upsertPrice payload =>
        intro hk
        by_cases h2 : k = payload.product_id <;>
          simp [step, upsert_price, h2, hk]
      | upsertPromotion pid pct =>
        intro hk
        by_cases hc : 0 ≤ pct ∧ pct ≤ 100 <;>
          simp [step, upsert_promotion, hc, hk]
    · cases op with
      | health => exact id
      | getPrice pid ap => exact id
      | queryPrice q => exact id
      | upsertPrice payload => exact id
      | upsertPromotion pid pct =>
        intro hk
        by_cases hc : 0 ≤ pct ∧ pct ≤ 100
        · by_cases h2 : k = pid <;>
            simp [step, upsert_promotion, hc, h2, hk]
        · simp [step, upsert_promotion, hc, hk]

/-- C9 witness: the invariant after storing a 50% promotion, and
preservation of an existing entry across a rejected upsert. -/
theorem C9_witness :
    ((0 : ℚ) ≤ 50 ∧ (50 : ℚ) ≤ 100)
      ∧ ((step wStore (.upsertPromotion "P" 200)).PROMOTIONS "P").isSome := by
  have h := C9_reachable_invariant [.upsertPromotion "p" 50]
  exact ⟨h.1 "p" 50 rfl,
         (h.2 wStore (.upsertPromotion "P" 200) "P").2 rfl⟩

/-- C10: `upsert_price` changes only the price entry of its product id and
leaves the promotions table untouched; `upsert_promotion` changes only the
promotion entry of its product id and leaves the prices table untouched;
`health`, `get_price` and `query_price` leave the whole store unchanged. -/
theorem C10_frame (s : Store) (payload : PriceCreate) (P k pid : String)
    (pct : ℚ) (ap : Bool) (q : PriceQuery) :
    (upsert_price s payload).1.PROMOTIONS = s.PROMOTIONS
    ∧ (k ≠ payload.product_id →
        (upsert_price s payload).1.PRICES k = s.PRICES k)
    ∧ (step s (.upsertPromotion P pct)).PRICES = s.PRICES
    ∧ (k ≠ P →
        (step s (.upsertPromotion P pct)).PROMOTIONS k = s.PROMOTIONS k)
    ∧ step s .health = s
    ∧ step s (.getPrice pid ap) = s
    ∧ step s (.queryPrice q) = s := by
  refine ⟨rfl, ?_, ?_, ?_, rfl, rfl, rfl⟩
  · intro hk
    simp [upsert_price, hk]
  · by_cases hc : 0 ≤ pct ∧ pct ≤ 100 <;>
      simp [step, upsert_promotion, hc]
  · intro hk
    by_cases hc : 0 ≤ pct ∧ pct ≤ 100 <;>
      simp [step, upsert_promotion, hc, hk]

/-- C10 witness: concrete frame checks around the 100 USD store. -/
theorem C10_witness :
    (upsert_price wStore ⟨"Q", "EUR", 7⟩).1.PROMOTIONS = wStore.PROMOTIONS
      ∧ (upsert_price wStore ⟨"Q", "EUR", 7⟩).1.PRICES "R" = wStore.PRICES "R"
      ∧ (step wStore (.upsertPromotion "Q" 5)).PROMOTIONS "R"
          = wStore.PROMOTIONS "R" := by
  have h := C10_frame wStore ⟨"Q", "EUR", 7⟩ "Q" "R" "P" 5 true ⟨"P", "USD", true⟩
  exact ⟨h.1, h.2.1 (by decide), h.2.2.2.1 (by decide)⟩

end PriceList
